/-
Verification of the VoxStruct transcript-assembly pipeline.

Shallow embedding of:
  * src/voxstruct/utils/transcript_builder.py  (TranscriptBuilder)
  * src/voxstruct/utils/speech_recognizer.py   (SpeechRecognizer result
    normalisation and the temporary-file lifecycle of transcribe_audio)
  * src/voxstruct/utils/audio_processor.py     (AudioProcessor.get_chunks)

Python floats are modelled as rationals (ℚ), Python `None`-able values as
`Option`, and raising code as `Except`.  Dicts with a fixed key set are
modelled as structures.  String literals that the Python source writes with
a doubled backslash (e.g. the source text `".\\n"`, which denotes the
two-character string backslash + n, not a newline) are reproduced exactly.
-/
import Mathlib

namespace VoxStruct

/-- One entry of `TranscriptBuilder.segments`.  In chunk granularity the
`text` field models the dict key `"text"`; in word granularity it models the
dict key `"word"` (a builder instance only ever reads the key matching its
granularity).  Times are absolute milliseconds; both add operations always
set them, so they are total here. -/
structure Segment where
  text : String
  start_time : ℚ
  end_time : ℚ
  speaker : Option String
  confidence : Option ℚ
deriving DecidableEq

/-- The `self.metadata` dict of `TranscriptBuilder.__init__`.  The source
appends to `confidence_scores` only under `if confidence is not None`, so the
list holds plain rationals (the later `is not None` filter in `get_metadata`
is vacuous on builder-produced states and is modelled as the identity). -/
structure BuilderMetadata where
  total_duration : ℚ
  pause_points : List ℚ
  speaker_changes : List ℚ
  confidence_scores : List ℚ
deriving DecidableEq

/-- State of a `TranscriptBuilder` instance. -/
structure TranscriptBuilder where
  granularity : String
  segments : List Segment
  metadata : BuilderMetadata
deriving DecidableEq

/-- Exceptions raised by the builder: `__init__` raises `ValueError`;
`add_chunk_segment` / `add_word_segments` raise `TypeError` on a granularity
mismatch (the error the spec taxonomy names `GranularityMismatch`). -/
inductive BuilderError where
  | granularityMismatch (msg : String)
  | valueError (msg : String)
deriving DecidableEq

/-- One element of the `word_segment_list` argument of `add_word_segments`:
`word_info.get("word", "")`, `.get("start")`, `.get("end")`,
`.get("confidence")`.  `startSec` / `endSec` model the `"start"` / `"end"`
keys (seconds, chunk-relative). -/
structure WordInfo where
  word : String
  startSec : Option ℚ
  endSec : Option ℚ
  confidence : Option ℚ
deriving DecidableEq

/-- Python `str.strip()` with no argument: remove leading and trailing
whitespace.  (Implemented over the character list so that proofs can evaluate
it inside the kernel; `String.trim` itself is not kernel-reducible.) -/
def pyStrip (s : String) : String :=
  String.mk (((s.data.dropWhile Char.isWhitespace).reverse.dropWhile
    Char.isWhitespace).reverse)

/-- Python `str.endswith(suffix)` for a plain string suffix, via the
character list (kernel-reducible counterpart of `String.endsWith`). -/
def pyEndsWith (s suffix : String) : Bool :=
  suffix.data.isSuffixOf s.data

/-- Python truthiness of an `Optional[str]`: not `None` and non-empty. -/
def strTruthy : Option String → Bool
  | none => false
  | some s => s ≠ ""

/-- Python `xs[-2]`: the second-to-last element (the source only evaluates it
behind a length guard, so out-of-range access is modelled as `none`). -/
def secondLast (l : List Segment) : Option Segment :=
  l.reverse.get? 1

/-- The builder state produced by a successful `TranscriptBuilder.__init__`. -/
def initState (granularity : String) : TranscriptBuilder :=
  { granularity := granularity
    segments := []
    metadata := { total_duration := 0, pause_points := [], speaker_changes := [],
                  confidence_scores := [] } }

/-- Embedding of `TranscriptBuilder.__init__`: validates the granularity string before any
state is created; raises `ValueError` otherwise. -/
def TranscriptBuilder.init (granularity : String) : Except BuilderError TranscriptBuilder :=
  if ¬ (granularity = "chunk" ∨ granularity = "word") then
    .error (.valueError ("Granularity must be chunk or word"))
  else
    .ok (initState granularity)

/-- Embedding of `TranscriptBuilder.add_chunk_segment`.  The granularity check is the first
statement of the method, so on `TypeError` no segment has been appended and no
metadata has changed; the `Except.error` result carries no successor state. -/
def addChunkSegment (b : TranscriptBuilder) (text : String) (start_time end_time : ℚ)
    (speaker : Option String) (confidence : Option ℚ) :
    Except BuilderError TranscriptBuilder :=
  if b.granularity ≠ "chunk" then
    .error (.granularityMismatch ("Cannot add chunk segment when granularity is word"))
  else
    let segment : Segment :=
      { text := pyStrip text, start_time := start_time, end_time := end_time,
        speaker := speaker, confidence := confidence }
    let segments := b.segments ++ [segment]
    let md := b.metadata
    let md := { md with total_duration := max md.total_duration end_time }
    let md := match confidence with
      | some c => { md with confidence_scores := md.confidence_scores ++ [c] }
      | none => md
    let md :=
      if strTruthy speaker &&
          (decide (segments.length ≤ 1) ||
            decide ((secondLast segments).bind (fun s => s.speaker) ≠ speaker)) then
        { md with speaker_changes := md.speaker_changes ++ [start_time] }
      else md
    .ok { b with segments := segments, metadata := md }

/-- The loop body of `add_word_segments`, threading the
`(self.segments, self.metadata)` state through one `word_info`. -/
def processWord (chunk_start_time_ms : ℚ) (speaker : Option String)
    (st : List Segment × BuilderMetadata) (w : WordInfo) :
    List Segment × BuilderMetadata :=
  let word := pyStrip w.word
  match w.startSec, w.endSec with
  | some start_sec, some end_sec =>
    if word = "" then st   -- `if not word ...: continue`
    else
      let abs_start_time_ms := chunk_start_time_ms + start_sec * 1000
      let abs_end_time_ms := chunk_start_time_ms + end_sec * 1000
      let segment : Segment :=
        { text := word, start_time := abs_start_time_ms, end_time := abs_end_time_ms,
          speaker := speaker, confidence := w.confidence }
      let segments := st.1 ++ [segment]
      let md := st.2
      let md := { md with total_duration := max md.total_duration abs_end_time_ms }
      let md := match w.confidence with
        | some c => { md with confidence_scores := md.confidence_scores ++ [c] }
        | none => md
      let md :=
        if strTruthy speaker &&
            (decide (segments.length ≤ 1) ||
              decide ((secondLast segments).bind (fun s => s.speaker) ≠ speaker)) then
          { md with speaker_changes := md.speaker_changes ++ [abs_start_time_ms] }
        else md
      (segments, md)
  | _, _ => st               -- `start_sec is None or end_sec is None: continue`

/-- Embedding of `TranscriptBuilder.add_word_segments`. -/
def addWordSegments (b : TranscriptBuilder) (word_segment_list : List WordInfo)
    (chunk_start_time_ms : ℚ) (speaker : Option String) :
    Except BuilderError TranscriptBuilder :=
  if b.granularity ≠ "word" then
    .error (.granularityMismatch ("Cannot add word segments when granularity is chunk"))
  else
    let st := word_segment_list.foldl (processWord chunk_start_time_ms speaker)
      (b.segments, b.metadata)
    .ok { b with segments := st.1, metadata := st.2 }

/-- Embedding of `TranscriptBuilder.add_pause_point`. -/
def addPausePoint (b : TranscriptBuilder) (timestamp_ms : ℚ) : TranscriptBuilder :=
  { b with metadata :=
      { b.metadata with pause_points := b.metadata.pause_points ++ [timestamp_ms] } }

/-- Embedding of `transcript.endswith(("\\n", "\\n "))` — note the doubled backslashes in
the Python source: the suffixes tested are the literal two-character string
backslash + n and that string followed by a space, not a real newline. -/
def endsNl (s : String) : Bool :=
  pyEndsWith s ("\\n") || pyEndsWith s ("\\n ")

/-- Decimal rendering of a rational with a fixed number of fractional digits,
modelling the f-string conversions `:.1f` / `:.2f` (rounding half away from
zero; Python rounds the underlying binary float half to even, but no claim
exercises a tie and every concrete input used below is exact). -/
def formatFixed (q : ℚ) (digits : ℕ) : String :=
  let scale : ℤ := (10 : ℤ) ^ digits
  let n : ℤ := round (q * (scale : ℚ))
  let sign := if n < 0 then ("-") else ("")
  let a := n.natAbs
  let intPart := a / scale.toNat
  let fracPart := a % scale.toNat
  let fracStr := toString fracPart
  let pad := String.mk (List.replicate (digits - fracStr.length) (Char.ofNat 48))
  if digits = 0 then sign ++ toString intPart
  else sign ++ toString intPart ++ (".") ++ pad ++ fracStr

/-- The word-granularity loop of `build_transcript` (lines 135-171).  `prev`
is `self.segments[i-1]` (`none` at `i = 0`); the builder always sets
`start_time` / `end_time`, so the source `is not None` guards on them are
always true and the corresponding branches are taken unconditionally. -/
def buildWordGo (format_type : String) (prev : Option Segment) :
    List Segment → String → String
  | [], transcript => transcript
  | seg :: rest, transcript =>
    let is_new_speaker := strTruthy seg.speaker &&
      (match prev with
       | none => true
       | some p => decide (p.speaker ≠ seg.speaker))
    let transcript :=
      if format_type = "detailed" && is_new_speaker then
        let t := if transcript ≠ "" && !(endsNl transcript) then transcript ++ (" ")
                 else transcript
        t ++ ("\\n[") ++ (seg.speaker.getD ("")) ++ ("]:")
      else transcript
    let transcript :=
      if prev.isSome && !is_new_speaker && !(endsNl transcript) then transcript ++ (" ")
      else transcript
    let transcript := transcript ++ seg.text
    let transcript :=
      if format_type = "detailed" then
        transcript ++ (" [") ++ formatFixed (seg.start_time / 1000) 2 ++ ("s]")
      else transcript
    let transcript :=
      match rest with
      | next :: _ =>
        let pause_duration_ms := next.start_time - seg.end_time
        if pause_duration_ms > 800 then transcript ++ (".")
        else if pause_duration_ms > 300 then transcript ++ (",")
        else transcript
      | [] => transcript ++ (".")
    buildWordGo format_type (some seg) rest transcript

/-- The chunk-granularity loop of `build_transcript` (lines 177-217).  The
separator written on a major pause is the source text `".\\n"`, i.e. a period
followed by the literal characters backslash and n. -/
def buildChunkGo (format_type : String) (pause_points : List ℚ) (prev : Option Segment) :
    List Segment → String → String
  | [], transcript => transcript
  | seg :: rest, transcript =>
    let is_new_speaker := strTruthy seg.speaker &&
      (match prev with
       | none => true
       | some p => decide (p.speaker ≠ seg.speaker))
    let transcript :=
      if format_type = "detailed" && is_new_speaker then
        let t := if transcript ≠ "" && !(endsNl transcript) then transcript ++ (" ")
                 else transcript
        t ++ ("\\n[") ++ (seg.speaker.getD ("")) ++ ("]: ")
      else transcript
    let transcript :=
      if prev.isSome && !is_new_speaker && !(endsNl transcript) then transcript ++ (" ")
      else transcript
    let transcript := transcript ++ seg.text
    let transcript :=
      if format_type = "detailed" then
        transcript ++ (" [") ++ formatFixed (seg.start_time / 1000) 1 ++ ("s]")
      else transcript
    let transcript :=
      match rest with
      | next :: _ =>
        let pause_duration_ms := next.start_time - seg.end_time
        let is_major_pause :=
          pause_points.any (fun p => decide (|p - next.start_time| < 150))
        if is_major_pause || decide (pause_duration_ms > 1000) then transcript ++ (".\\n")
        else if pause_duration_ms > 400 then transcript ++ (". ")
        else transcript ++ (", ")
      | [] => transcript ++ (".")
    buildChunkGo format_type pause_points (some seg) rest transcript

/-- Embedding of `TranscriptBuilder.build_transcript`. -/
def buildTranscript (b : TranscriptBuilder) (format_type : String) : String :=
  if b.segments = [] then ("")
  else if format_type = "raw" then
    if b.granularity = "word" then
      (" ").intercalate (b.segments.map (fun seg => seg.text))
    else
      (" ").intercalate (b.segments.map (fun seg => seg.text))
  else
    let transcript :=
      if b.granularity = "word" then buildWordGo format_type none b.segments ("")
      else buildChunkGo format_type b.metadata.pause_points none b.segments ("")
    pyStrip transcript

/-- A call of the `build_transcript` method viewed as a state transformer:
the method body only reads `self`, never assigns to it, so the post state is
the unchanged receiver. -/
def buildTranscriptCall (b : TranscriptBuilder) (format_type : String) :
    String × TranscriptBuilder :=
  (buildTranscript b format_type, b)

/-- Return value of `TranscriptBuilder.get_metadata`. -/
structure MetadataOut where
  granularity : String
  duration_seconds : ℚ
  pause_count : ℕ
  speaker_changes : ℕ
  average_confidence : Option ℚ
  segment_count : ℕ
deriving DecidableEq

/-- Embedding of `TranscriptBuilder.get_metadata`.  `confidence_scores` holds no `None`
entries (see `BuilderMetadata`), so `valid_scores` is the whole list and the
two truthiness checks of the source collapse into one. -/
def getMetadata (b : TranscriptBuilder) : MetadataOut :=
  let scores := b.metadata.confidence_scores
  let avg_conf : Option ℚ :=
    if scores ≠ [] then some (scores.sum / (scores.length : ℚ)) else none
  { granularity := b.granularity
    duration_seconds := b.metadata.total_duration / 1000
    pause_count := b.metadata.pause_points.length
    speaker_changes := b.metadata.speaker_changes.length
    average_confidence := avg_conf
    segment_count := b.segments.length }

/-- A builder API call, for stating invariants over every reachable state. -/
inductive BuilderOp where
  | addChunk (text : String) (start_time end_time : ℚ)
      (speaker : Option String) (confidence : Option ℚ)
  | addWords (ws : List WordInfo) (chunk_start_time_ms : ℚ) (speaker : Option String)
  | addPause (timestamp_ms : ℚ)

/-- Run one call; a raising call (granularity mismatch) leaves the builder
unchanged, exactly as an uncaught Python exception would. -/
def runOp (b : TranscriptBuilder) : BuilderOp → TranscriptBuilder
  | .addChunk text st en sp conf =>
    match addChunkSegment b text st en sp conf with
    | .ok b2 => b2
    | .error _ => b
  | .addWords ws cs sp =>
    match addWordSegments b ws cs sp with
    | .ok b2 => b2
    | .error _ => b
  | .addPause t => addPausePoint b t

/-- Run a sequence of builder calls. -/
def runOps (b : TranscriptBuilder) (ops : List BuilderOp) : TranscriptBuilder :=
  ops.foldl runOp b

/-- One entry of the canonical word/segment list produced by
`SpeechRecognizer._format_result` (keys `word` / `start` / `end` /
`confidence`; times in seconds relative to the chunk). -/
structure NormWord where
  word : String
  startSec : Option ℚ
  endSec : Option ℚ
  confidence : Option ℚ
deriving DecidableEq

/-- Python truthiness of an `Optional[float]`: not `None` and non-zero. -/
def ratTruthy : Option ℚ → Bool
  | none => false
  | some c => c ≠ 0

/-- The normalized result dict `_format_result` returns: `text`, optional
`language` (the vosk branch emits no such key, modelled as `none`),
`confidence`, `segments`. -/
structure EngineOut where
  text : String
  language : Option String
  confidence : ℚ
  segments : List NormWord
deriving DecidableEq

/-- One element of the vosk `result` list: keys `word` / `start` / `end` /
`conf`; a missing `start` key is modelled as `none`. -/
structure VoskWord where
  word : String
  startSec : Option ℚ
  endSec : Option ℚ
  conf : Option ℚ
deriving DecidableEq

/-- Parsed vosk `FinalResult()` JSON: `text` plus the optional `result` word
list (`none` models an absent or non-list `result` key). -/
structure VoskResult where
  text : String
  result : Option (List VoskWord)
deriving DecidableEq

/-- The vosk branch of `SpeechRecognizer._format_result` (lines 204-237),
after JSON parsing.  Note the average divides the sum of the truthy
confidences by the length of the whole `word_segments` list. -/
def voskFormat (res : VoskResult) : EngineOut :=
  match res.result with
  | some rws =>
    let word_segments : List NormWord :=
      (rws.filter (fun w => w.startSec.isSome)).map
        (fun w => { word := pyStrip w.word, startSec := w.startSec,
                    endSec := w.endSec, confidence := w.conf })
    let full_text :=
      if word_segments ≠ [] then
        (" ").intercalate (word_segments.map (fun w => w.word))
      else res.text
    let avg_confidence : ℚ :=
      if word_segments ≠ [] then
        ((word_segments.filter (fun w => ratTruthy w.confidence)).map
          (fun w => w.confidence.getD 0)).sum / (word_segments.length : ℚ)
      else 0
    { text := full_text, language := none, confidence := avg_confidence,
      segments := word_segments }
  | none =>
    let word_segments : List NormWord :=
      [{ word := res.text, startSec := none, endSec := none, confidence := none }]
    let avg_confidence : ℚ :=
      if word_segments ≠ [] then
        ((word_segments.filter (fun w => ratTruthy w.confidence)).map
          (fun w => w.confidence.getD 0)).sum / (word_segments.length : ℚ)
      else 0
    { text := res.text, language := none, confidence := avg_confidence,
      segments := word_segments }

/-- One element of the `words` list of a whisper-timestamped segment: keys
`text` / `start` / `end` / `confidence`. -/
structure WhisperWord where
  text : Option String
  startSec : Option ℚ
  endSec : Option ℚ
  confidence : Option ℚ
deriving DecidableEq

/-- One whisper segment; `words = none` models an absent or non-list
`words` key (`isinstance(segment_words, list)` failing). -/
structure WhisperSegment where
  words : Option (List WhisperWord)
deriving DecidableEq

/-- Whisper-family native result: `text`, optional `language`, `segments`. -/
structure WhisperResult where
  text : String
  language : Option String
  segments : List WhisperSegment
deriving DecidableEq

/-- Loop body of the word-granularity whisper branch of `_format_result`
(lines 134-149): state is `(word_segments, overall_confidence, word_count)`. -/
def whisperWordStep (st : List NormWord × ℚ × ℕ) (w : WhisperWord) :
    List NormWord × ℚ × ℕ :=
  if w.text ≠ none ∧ w.startSec ≠ none ∧ w.endSec ≠ none then
    let segs := st.1 ++ [{ word := pyStrip (w.text.getD ("")), startSec := w.startSec,
                           endSec := w.endSec, confidence := w.confidence }]
    match w.confidence with
    | some c => (segs, st.2.1 + c, st.2.2 + 1)
    | none => (segs, st.2.1, st.2.2)
  else st

/-- The word-granularity whisper branch of `_format_result` (lines 122-202
with `granularity == "word"`): collects word segments across all segments
and averages the non-null confidences (0 if none were counted). -/
def whisperFormatWord (res : WhisperResult) : EngineOut :=
  let st := res.segments.foldl
    (fun acc seg =>
      match seg.words with
      | some ws => ws.foldl whisperWordStep acc
      | none => acc)
    (([], 0, 0) : List NormWord × ℚ × ℕ)
  let avg_confidence : ℚ := if st.2.2 > 0 then st.2.1 / (st.2.2 : ℚ) else 0
  { text := res.text, language := some (res.language.getD ("unknown")),
    confidence := avg_confidence, segments := st.1 }

/-- Modelled from the spec: "Confidence aggregation: mean of all
per-word/per-segment confidences that are non-null; if none present, result
confidence is 0."  Used to compare the implemented averages against the
wording of the spec. -/
def specMeanNonNull (cs : List (Option ℚ)) : ℚ :=
  let vals := cs.filterMap id
  if vals = [] then 0 else vals.sum / (vals.length : ℚ)

/-- File-system state visible to `transcribe_audio`: the set of existing
temporary files, as a list of paths. -/
structure FsState where
  files : List String
deriving DecidableEq

/-- The dict `transcribe_audio` returns: the success path returns the
`_format_result` output (no `error` key, modelled `none`); the exception
path returns `{"text": "", "error": str(e), "confidence": 0, "segments": []}`. -/
structure TranscribeOut where
  text : String
  language : Option String
  error : Option String
  confidence : ℚ
  segments : List NormWord
deriving DecidableEq

/-- Embedding of `SpeechRecognizer.transcribe_audio` for the vosk engine, as a transformer
of the file-system state.  `tmp_name` is the path chosen by
`tempfile.NamedTemporaryFile(suffix=".wav", delete=False)` (fresh by
construction); `engine_outcome` is the behaviour of the external vendor code
inside the `try` block (`.error` = it raised).  The source unlinks the
temporary file only after the `with` block on the success path; the
`except Exception` handler returns the error dict without unlinking. -/
def transcribeAudioVosk (tmp_name : String) (engine_outcome : Except String VoskResult)
    (fs : FsState) : TranscribeOut × FsState :=
  let fs1 : FsState := { files := tmp_name :: fs.files }   -- temp WAV created
  match engine_outcome with
  | .ok native =>
    let fs2 : FsState := { files := fs1.files.erase tmp_name }  -- os.unlink
    let r := voskFormat native
    ({ text := r.text, language := r.language, error := none,
       confidence := r.confidence, segments := r.segments }, fs2)
  | .error e =>
    ({ text := "", language := none, error := some e, confidence := 0,
       segments := [] }, fs1)

/-- State of an `AudioProcessor`; the loaded audio buffer is represented by
its duration in milliseconds (`len(self.audio)`), `none` before
`load_audio`. -/
structure AudioProcessor where
  file_path : String
  sample_rate : ℕ
  chunk_size : ℕ
  audio : Option ℕ
deriving DecidableEq

/-- A chunk `self.audio[i : i + chunk_size]`: absolute start offset and
duration, both in milliseconds. -/
structure Chunk where
  start : ℕ
  len : ℕ
deriving DecidableEq

/-- Python `range(0, stop, step)` for `step > 0` (for `step = 0` Python
raises; `get_chunks` guards that case below). -/
def pyRange (stop step : ℕ) : List ℕ :=
  (List.range ((stop + step - 1) / step)).map (fun k => k * step)

/-- Python truthiness of `self.audio`: `None` is falsy, and a loaded pydub
`AudioSegment` delegates truthiness to `__len__`, so a successfully loaded
0 ms buffer is falsy as well. -/
def audioTruthy : Option ℕ → Bool
  | none => false
  | some duration_ms => duration_ms ≠ 0

/-- Embedding of `AudioProcessor.get_chunks`: the guard `if not self.audio`
raises `ValueError` both when the audio was never loaded and when the loaded
buffer is empty (0 ms), because pydub truthiness goes through `__len__`;
otherwise it slices `[0, duration)` into `chunk_size`-sized pieces (the
final slice truncated by pydub slicing semantics).  A pure read: the
processor state is not mutated and the list is recomputed on every call. -/
def getChunks (p : AudioProcessor) : Except String (List Chunk) :=
  if ¬ audioTruthy p.audio then
    .error ("Audio not loaded. Call load_audio() first.")
  else
    let duration_ms := p.audio.getD 0
    if p.chunk_size = 0 then .error ("range() arg 3 must not be zero")
    else
      .ok ((pyRange duration_ms p.chunk_size).map
        (fun i => { start := i, len := min (i + p.chunk_size) duration_ms - i }))

section Lemmas

/-- The function `foldl max` either returns its seed or an element of the list. -/
lemma foldl_max_eq_init_or_mem (l : List ℚ) (a : ℚ) :
    l.foldl max a = a ∨ l.foldl max a ∈ l := by
  induction l generalizing a with
  | nil => exact Or.inl rfl
  | cons x xs ih =>
    rcases ih (max a x) with h | h
    · rcases max_choice a x with h2 | h2
      · exact Or.inl (by rw [List.foldl_cons, h, h2])
      · exact Or.inr (by rw [List.foldl_cons, h, h2]; exact List.mem_cons_self _ _)
    · exact Or.inr (List.mem_cons_of_mem _ (by rw [List.foldl_cons]; exact h))

/-- The seed is a lower bound of `foldl max`. -/
lemma le_foldl_max_init (l : List ℚ) (a : ℚ) : a ≤ l.foldl max a := by
  induction l generalizing a with
  | nil => exact le_refl a
  | cons x xs ih => exact le_trans (le_max_left a x) (ih (max a x))

/-- Every element of the list is a lower bound of `foldl max`. -/
lemma le_foldl_max_of_mem {l : List ℚ} {x : ℚ} (a : ℚ) (h : x ∈ l) :
    x ≤ l.foldl max a := by
  induction l generalizing a with
  | nil => cases h
  | cons y ys ih =>
    rcases List.mem_cons.mp h with rfl | h2
    · exact le_trans (le_max_right a x) (le_foldl_max_init ys (max a x))
    · exact ih _ h2

/-- Over a non-empty list of non-negatives, `foldl max 0` is attained. -/
lemma foldl_max_mem {l : List ℚ} (h1 : l ≠ []) (h2 : ∀ x ∈ l, 0 ≤ x) :
    l.foldl max 0 ∈ l := by
  rcases foldl_max_eq_init_or_mem l 0 with h | h
  · cases l with
    | nil => exact absurd rfl h1
    | cons y ys =>
      have hy : y ≤ 0 := h ▸ le_foldl_max_of_mem 0 (List.mem_cons_self y ys)
      have : y = 0 := le_antisymm hy (h2 y (List.mem_cons_self y ys))
      rw [h, ← this]
      exact List.mem_cons_self y ys
  · exact h

/-- End times of a segment list. -/
def endsOf (l : List Segment) : List ℚ := l.map (fun s => s.end_time)

/-- The bookkeeping invariant tying `total_duration` to the segments. -/
def TotalInv (st : List Segment × BuilderMetadata) : Prop :=
  st.2.total_duration = (endsOf st.1).foldl max 0

lemma endsOf_append (l : List Segment) (s : Segment) :
    endsOf (l ++ [s]) = endsOf l ++ [s.end_time] := by
  simp [endsOf]

/-- One `add_word_segments` loop iteration preserves the invariant. -/
lemma processWord_totalInv (cs : ℚ) (sp : Option String)
    (st : List Segment × BuilderMetadata) (w : WordInfo) (h : TotalInv st) :
    TotalInv (processWord cs sp st w) := by
  unfold processWord
  cases hs : w.startSec with
  | none => cases hw : w.endSec <;> simpa using h
  | some s0 =>
    cases hw : w.endSec with
    | none => simpa using h
    | some e0 =>
      by_cases hword : pyStrip w.word = ""
      · simpa [hword] using h
      · unfold TotalInv at h ⊢
        cases hc : w.confidence <;>
          simp [hword, endsOf_append, List.foldl_append, h] <;> split <;> rfl

/-- One `add_word_segments` loop iteration never decreases `total_duration`. -/
lemma processWord_total_mono (cs : ℚ) (sp : Option String)
    (st : List Segment × BuilderMetadata) (w : WordInfo) :
    st.2.total_duration ≤ (processWord cs sp st w).2.total_duration := by
  unfold processWord
  cases hs : w.startSec with
  | none => cases hw : w.endSec <;> simp
  | some s0 =>
    cases hw : w.endSec with
    | none => simp
    | some e0 =>
      by_cases hword : pyStrip w.word = ""
      · simp [hword]
      · cases hc : w.confidence <;> simp [hword] <;> split <;> simp [le_max_left]

lemma foldl_processWord_totalInv (cs : ℚ) (sp : Option String) (ws : List WordInfo)
    (st : List Segment × BuilderMetadata) (h : TotalInv st) :
    TotalInv (ws.foldl (processWord cs sp) st) := by
  induction ws generalizing st with
  | nil => exact h
  | cons w ws ih => exact ih _ (processWord_totalInv cs sp st w h)

lemma foldl_processWord_total_mono (cs : ℚ) (sp : Option String) (ws : List WordInfo)
    (st : List Segment × BuilderMetadata) :
    st.2.total_duration ≤ (ws.foldl (processWord cs sp) st).2.total_duration := by
  induction ws generalizing st with
  | nil => exact le_refl _
  | cons w ws ih =>
    exact le_trans (processWord_total_mono cs sp st w) (ih (processWord cs sp st w))

/-- Builder-level invariant. -/
def BuilderTotalInv (b : TranscriptBuilder) : Prop :=
  b.metadata.total_duration = (endsOf b.segments).foldl max 0

lemma initState_totalInv (g : String) : BuilderTotalInv (initState g) := rfl

lemma runOp_totalInv (b : TranscriptBuilder) (op : BuilderOp)
    (h : BuilderTotalInv b) : BuilderTotalInv (runOp b op) := by
  cases op with
  | addChunk text st en sp conf =>
    unfold runOp addChunkSegment
    by_cases hg : b.granularity = "chunk"
    · unfold BuilderTotalInv at h ⊢
      cases conf <;>
        simp [hg, endsOf_append, List.foldl_append, h] <;> split <;> rfl
    · simp [hg]; exact h
  | addWords ws cs sp =>
    unfold runOp addWordSegments
    by_cases hg : b.granularity = "word"
    · simp [hg]
      exact foldl_processWord_totalInv cs sp ws (b.segments, b.metadata) h
    · simp [hg]; exact h
  | addPause t => exact h

lemma runOps_totalInv (g : String) (ops : List BuilderOp) :
    BuilderTotalInv (runOps (initState g) ops) := by
  suffices h : ∀ b, BuilderTotalInv b → BuilderTotalInv (runOps b ops) from
    h _ (initState_totalInv g)
  unfold runOps
  induction ops with
  | nil => exact fun b h => h
  | cons op ops ih => exact fun b h => ih (runOp b op) (runOp_totalInv b op h)

end Lemmas

section Lemmas2

/-- No single builder call ever decreases `total_duration`. -/
lemma runOp_total_mono (b : TranscriptBuilder) (op : BuilderOp) :
    b.metadata.total_duration ≤ (runOp b op).metadata.total_duration := by
  cases op with
  | addChunk text st en sp conf =>
    unfold runOp addChunkSegment
    by_cases hg : b.granularity = "chunk"
    · cases conf <;> simp [hg] <;> split <;> simp [le_max_left]
    · simp [hg]
  | addWords ws cs sp =>
    unfold runOp addWordSegments
    by_cases hg : b.granularity = "word"
    · simp [hg]
      exact foldl_processWord_total_mono cs sp ws (b.segments, b.metadata)
    · simp [hg]
  | addPause t => exact le_refl _

/-- The non-negativity condition on the end-time arguments of one call. -/
def opEndsNonneg : BuilderOp → Prop
  | .addChunk _ _ end_time _ _ => 0 ≤ end_time
  | .addWords ws chunk_start _ =>
      ∀ w ∈ ws, ∀ e, w.endSec = some e → 0 ≤ chunk_start + e * 1000
  | .addPause _ => True

/-- The segment that one `word_info` contributes (if any): `none` exactly
when the unit is skipped by the `continue` guard. -/
def wordToSegment (chunk_start_time_ms : ℚ) (speaker : Option String)
    (w : WordInfo) : Option Segment :=
  match w.startSec, w.endSec with
  | some start_sec, some end_sec =>
    if pyStrip w.word = "" then none
    else some
      { text := pyStrip w.word,
        start_time := chunk_start_time_ms + start_sec * 1000,
        end_time := chunk_start_time_ms + end_sec * 1000,
        speaker := speaker, confidence := w.confidence }
  | _, _ => none

/-- One loop iteration appends exactly the contributed segment. -/
lemma processWord_fst (cs : ℚ) (sp : Option String)
    (st : List Segment × BuilderMetadata) (w : WordInfo) :
    (processWord cs sp st w).1 = st.1 ++ (wordToSegment cs sp w).toList := by
  unfold processWord wordToSegment
  cases hs : w.startSec with
  | none => cases he : w.endSec <;> simp
  | some s0 =>
    cases he : w.endSec with
    | none => simp
    | some e0 =>
      by_cases hword : pyStrip w.word = "" <;> simp [hword]

/-- The whole loop of `add_word_segments` appends exactly the contributed
segments, in order. -/
lemma foldl_processWord_fst (cs : ℚ) (sp : Option String) (ws : List WordInfo)
    (st : List Segment × BuilderMetadata) :
    (ws.foldl (processWord cs sp) st).1 =
      st.1 ++ ws.filterMap (wordToSegment cs sp) := by
  induction ws generalizing st with
  | nil => simp
  | cons w ws ih =>
    rw [List.foldl_cons, ih, processWord_fst, List.filterMap_cons]
    cases h : wordToSegment cs sp w <;> simp [h]

lemma processWord_endsNonneg (cs : ℚ) (sp : Option String)
    (st : List Segment × BuilderMetadata) (w : WordInfo)
    (h : ∀ s ∈ st.1, 0 ≤ s.end_time)
    (hw : ∀ e, w.endSec = some e → 0 ≤ cs + e * 1000) :
    ∀ s ∈ (processWord cs sp st w).1, 0 ≤ s.end_time := by
  intro s hmem
  rw [processWord_fst] at hmem
  rcases List.mem_append.mp hmem with h1 | h1
  · exact h s h1
  · unfold wordToSegment at h1
    cases hs : w.startSec with
    | none => simp [hs] at h1
    | some s0 =>
      cases he : w.endSec with
      | none => simp [hs, he] at h1
      | some e0 =>
        by_cases hword : pyStrip w.word = ""
        · simp [hs, he, hword] at h1
        · simp [hs, he, hword] at h1
          rw [h1]
          exact hw e0 he

end Lemmas2

section Lemmas3

lemma foldl_processWord_endsNonneg (cs : ℚ) (sp : Option String) (ws : List WordInfo)
    (st : List Segment × BuilderMetadata)
    (h : ∀ s ∈ st.1, 0 ≤ s.end_time)
    (hws : ∀ w ∈ ws, ∀ e, w.endSec = some e → 0 ≤ cs + e * 1000) :
    ∀ s ∈ (ws.foldl (processWord cs sp) st).1, 0 ≤ s.end_time := by
  induction ws generalizing st with
  | nil => exact h
  | cons w ws ih =>
    rw [List.foldl_cons]
    exact ih _
      (processWord_endsNonneg cs sp st w h
        (fun e he => hws w (List.mem_cons_self w ws) e he))
      (fun w2 hw2 e he => hws w2 (List.mem_cons_of_mem w hw2) e he)

lemma runOp_endsNonneg (b : TranscriptBuilder) (op : BuilderOp)
    (h : ∀ s ∈ b.segments, 0 ≤ s.end_time) (hop : opEndsNonneg op) :
    ∀ s ∈ (runOp b op).segments, 0 ≤ s.end_time := by
  cases op with
  | addChunk text st en sp conf =>
    unfold runOp addChunkSegment
    by_cases hg : b.granularity = "chunk"
    · simp only [hg]
      intro s hmem
      simp at hmem
      rcases hmem with h1 | h1
      · exact h s h1
      · rw [h1]; exact hop
    · simpa [hg] using h
  | addWords ws cs sp =>
    unfold runOp addWordSegments
    by_cases hg : b.granularity = "word"
    · simp only [hg, ne_eq, not_true_eq_false, ite_false, reduceIte]
      exact foldl_processWord_endsNonneg cs sp ws (b.segments, b.metadata) h hop
    · simpa [hg] using h
  | addPause t => exact h

lemma runOps_endsNonneg (g : String) (ops : List BuilderOp)
    (hops : ∀ op ∈ ops, opEndsNonneg op) :
    ∀ s ∈ (runOps (initState g) ops).segments, 0 ≤ s.end_time := by
  suffices hgen : ∀ b, (∀ s ∈ b.segments, 0 ≤ s.end_time) →
      ∀ s ∈ (runOps b ops).segments, 0 ≤ s.end_time from
    hgen _ (by intro s hs; cases hs)
  unfold runOps
  induction ops with
  | nil => exact fun b hb => hb
  | cons op ops ih =>
    intro b hb
    rw [List.foldl_cons]
    exact ih (fun op2 hop2 => hops op2 (List.mem_cons_of_mem op hop2)) (runOp b op)
      (runOp_endsNonneg b op hb (hops op (List.mem_cons_self op ops)))

end Lemmas3

section Lemmas4

/-- Accumulator invariant of the whisper word loop: the running sum and count
are exactly the sum and number of the non-null confidences collected so far. -/
def WhisperAccInv (st : List NormWord × ℚ × ℕ) : Prop :=
  st.2.1 = ((st.1.map (fun w => w.confidence)).filterMap id).sum ∧
  st.2.2 = ((st.1.map (fun w => w.confidence)).filterMap id).length

lemma whisperWordStep_inv (st : List NormWord × ℚ × ℕ) (w : WhisperWord)
    (h : WhisperAccInv st) : WhisperAccInv (whisperWordStep st w) := by
  obtain ⟨h1, h2⟩ := h
  unfold whisperWordStep
  by_cases hvalid : w.text ≠ none ∧ w.startSec ≠ none ∧ w.endSec ≠ none
  · cases hc : w.confidence with
    | some c =>
      refine ⟨?_, ?_⟩ <;>
        simp [hvalid, hc, List.filterMap_append, h1, h2]
    | none =>
      refine ⟨?_, ?_⟩ <;>
        simp [hvalid, hc, List.filterMap_append, h1, h2]
  · simpa [hvalid] using ⟨h1, h2⟩

lemma foldl_whisperWordStep_inv (ws : List WhisperWord)
    (st : List NormWord × ℚ × ℕ) (h : WhisperAccInv st) :
    WhisperAccInv (ws.foldl whisperWordStep st) := by
  induction ws generalizing st with
  | nil => exact h
  | cons w ws ih => exact ih _ (whisperWordStep_inv st w h)

lemma whisperSegLoop_inv (segs : List WhisperSegment)
    (st : List NormWord × ℚ × ℕ) (h : WhisperAccInv st) :
    WhisperAccInv (segs.foldl
      (fun acc seg =>
        match seg.words with
        | some ws => ws.foldl whisperWordStep acc
        | none => acc) st) := by
  induction segs generalizing st with
  | nil => exact h
  | cons seg segs ih =>
    rw [List.foldl_cons]
    cases hw : seg.words with
    | some ws => exact ih _ (by simpa [hw] using foldl_whisperWordStep_inv ws st h)
    | none => exact ih _ (by simpa [hw] using h)

/-- For an accumulator satisfying the invariant, the implemented average
equals the spec-worded mean over non-null entries. -/
lemma acc_mean_eq_specMeanNonNull (st : List NormWord × ℚ × ℕ)
    (h : WhisperAccInv st) :
    (if st.2.2 > 0 then st.2.1 / (st.2.2 : ℚ) else 0) =
      specMeanNonNull (st.1.map (fun w => w.confidence)) := by
  obtain ⟨h1, h2⟩ := h
  unfold specMeanNonNull
  by_cases hempty : ((st.1.map (fun w => w.confidence)).filterMap id) = []
  · rw [h1, h2, hempty]
    simp
  · have hlen : 0 < ((st.1.map (fun w => w.confidence)).filterMap id).length :=
      List.length_pos.mpr hempty
    rw [h1, h2, if_pos hlen, if_neg hempty]

/-- The word-granularity whisper confidence is the mean of the non-null
confidences of the collected word segments (0 if none). -/
lemma whisperFormatWord_meanNonNull (res : WhisperResult) :
    (whisperFormatWord res).confidence =
      specMeanNonNull ((whisperFormatWord res).segments.map (fun w => w.confidence)) := by
  have hinv := whisperSegLoop_inv res.segments (([], 0, 0) : List NormWord × ℚ × ℕ)
    ⟨rfl, rfl⟩
  exact acc_mean_eq_specMeanNonNull _ hinv

end Lemmas4

section Lemmas5

/-- Membership in the ceiling-division chunk count. -/
lemma lt_numChunks_iff {cs d k : ℕ} (hcs : 0 < cs) :
    k < (d + cs - 1) / cs ↔ k * cs < d := by
  rw [Nat.lt_iff_add_one_le, Nat.le_div_iff_mul_le hcs, add_one_mul]
  have h : k * cs = k * cs := rfl
  generalize k * cs = t at h ⊢
  omega

/-- Partial sums of the chunk lengths. -/
lemma chunkLens_sum (cs d : ℕ) (n : ℕ) :
    ((List.range n).map (fun k => min (k * cs + cs) d - k * cs)).sum =
      min (n * cs) d := by
  induction n with
  | zero => simp
  | succ n ih =>
    rw [List.range_succ, List.map_append, List.sum_append, ih]
    simp only [List.map_cons, List.map_nil, List.sum_cons, List.sum_nil, add_zero]
    rw [add_one_mul]
    have h : n * cs = n * cs := rfl
    generalize n * cs = t at h ⊢
    omega

/-- With a positive chunk size, the total of the chunk lengths is exactly the
duration. -/
lemma chunkLens_sum_eq (cs d : ℕ) (hcs : 0 < cs) :
    ((List.range ((d + cs - 1) / cs)).map
      (fun k => min (k * cs + cs) d - k * cs)).sum = d := by
  rw [chunkLens_sum]
  have h1 := Nat.div_add_mod (d + cs - 1) cs
  have h2 := Nat.mod_lt (d + cs - 1) hcs
  have h3 : cs * ((d + cs - 1) / cs) = ((d + cs - 1) / cs) * cs := Nat.mul_comm _ _
  generalize hq : (d + cs - 1) / cs = q at h1 h3 ⊢
  rw [h3] at h1
  generalize q * cs = t at h1 ⊢
  omega

end Lemmas5

/-- C10: constructing a `TranscriptBuilder` with any granularity string other
than "chunk" or "word" fails with a `ValueError` before any state is created,
and every successfully constructed builder has granularity exactly "chunk" or
"word" (the field is never reassigned afterwards). -/
theorem claim_C10_init_validation (g : String) :
    (g ≠ "chunk" → g ≠ "word" →
      TranscriptBuilder.init g =
        .error (.valueError ("Granularity must be chunk or word"))) ∧
    (∀ b, TranscriptBuilder.init g = .ok b →
      b.granularity = g ∧ (g = "chunk" ∨ g = "word")) := by
  constructor
  · intro h1 h2
    unfold TranscriptBuilder.init
    simp [h1, h2]
  · intro b hb
    unfold TranscriptBuilder.init at hb
    by_cases h : g = "chunk" ∨ g = "word"
    · simp only [h, not_true_eq_false, ite_false, reduceIte, Except.ok.injEq] at hb
      exact ⟨by rw [← hb]; rfl, h⟩
    · simp [h] at hb

/-- C10 witness: the invalid granularity "sentence" is rejected. -/
theorem claim_C10_witness :
    TranscriptBuilder.init ("sentence") =
      .error (.valueError ("Granularity must be chunk or word")) :=
  (claim_C10_init_validation ("sentence")).1 (by decide) (by decide)

/-- C4: on a word-mode builder every `add_chunk_segment` call fails with the
granularity-mismatch error (a `TypeError` in the source), and symmetrically
for `add_word_segments` on a chunk-mode builder; the check is the first
statement of each method, so the error result carries no successor state and
the builder of the caller is unchanged. -/
theorem claim_C4_granularity_enforcement (b : TranscriptBuilder) (text : String)
    (start_time end_time : ℚ) (sp : Option String) (conf : Option ℚ)
    (ws : List WordInfo) (cs : ℚ) (sp2 : Option String) :
    (b.granularity = "word" →
      addChunkSegment b text start_time end_time sp conf =
        .error (.granularityMismatch
          ("Cannot add chunk segment when granularity is word"))) ∧
    (b.granularity = "chunk" →
      addWordSegments b ws cs sp2 =
        .error (.granularityMismatch
          ("Cannot add word segments when granularity is chunk"))) := by
  constructor
  · intro h
    unfold addChunkSegment
    rw [h]
    simp
  · intro h
    unfold addWordSegments
    rw [h]
    simp

/-- C4 witness: both mismatch directions observed on freshly built
builders. -/
theorem claim_C4_witness :
    addChunkSegment (initState ("word")) ("x") 0 1 none none =
      .error (.granularityMismatch
        ("Cannot add chunk segment when granularity is word")) ∧
    addWordSegments (initState ("chunk")) [] 0 none =
      .error (.granularityMismatch
        ("Cannot add word segments when granularity is chunk")) :=
  ⟨(claim_C4_granularity_enforcement (initState ("word")) ("x") 0 1 none none [] 0
      none).1 rfl,
   (claim_C4_granularity_enforcement (initState ("chunk")) ("x") 0 1 none none [] 0
      none).2 rfl⟩

/-- C7: `build_transcript` is a pure read: the builder state after a call is
the receiver unchanged, a second call without intervening appends returns the
identical string, and on an empty segment list the result is `""` for every
format. -/
theorem claim_C7_build_pure_read (b : TranscriptBuilder) (format_type : String) :
    (buildTranscriptCall b format_type).2 = b ∧
    (buildTranscriptCall ((buildTranscriptCall b format_type).2) format_type).1 =
      (buildTranscriptCall b format_type).1 ∧
    (b.segments = [] → (buildTranscriptCall b format_type).1 = "") := by
  refine ⟨rfl, rfl, ?_⟩
  intro h
  unfold buildTranscriptCall buildTranscript
  simp [h]

/-- C7 witness: on an empty builder the detailed format returns `""`. -/
theorem claim_C7_witness :
    (buildTranscriptCall (initState ("chunk")) ("detailed")).1 = "" :=
  (claim_C7_build_pure_read (initState ("chunk")) ("detailed")).2.2 rfl

/-- C9 counterexample: when the vendor engine raises, `transcribe_audio`
catches the exception and returns the error dict, but the temporary WAV file
is NOT deleted — the file-system state after the call still contains it, so
deletion is not guaranteed on every exit path. -/
theorem claim_C9_counterexample :
    (transcribeAudioVosk ("tmp.wav") (.error ("vendor failure"))
        { files := [] }).2.files = ["tmp.wav"] ∧
    (transcribeAudioVosk ("tmp.wav") (.error ("vendor failure"))
        { files := [] }).2 ≠ ({ files := [] } : FsState) := by
  constructor
  · rfl
  · decide

/-- C9 amended: exactly one temporary WAV file is created per call; on the
success path it is unlinked before the call returns (net file-system change
nil), but when the vendor call raises, the handler returns the error dict
(`text=""`, `confidence=0`, `segments=[]`, `error` set) and the temporary
file persists. -/
theorem claim_C9_temp_file_lifecycle (tmp : String) (fs : FsState)
    (native : VoskResult) (e : String) :
    (transcribeAudioVosk tmp (.ok native) fs).2 = fs ∧
    (transcribeAudioVosk tmp (.error e) fs).2.files = tmp :: fs.files ∧
    (transcribeAudioVosk tmp (.error e) fs).1 =
      { text := "", language := none, error := some e, confidence := 0,
        segments := [] } := by
  refine ⟨?_, rfl, rfl⟩
  unfold transcribeAudioVosk
  simp [List.erase_cons_head]

/-- Chunk-mode builder with two segments separated by a 1200 ms gap
(end 1000 ms → next start 2200 ms), no pause points. -/
def c1GapBuilder : TranscriptBuilder :=
  runOps (initState ("chunk"))
    [.addChunk ("a") 0 1000 none none, .addChunk ("b") 2200 3000 none none]

/-- Chunk-mode builder with two segments separated by a 200 ms gap
(end 1000 ms → next start 1200 ms). -/
def c1CommaBuilder : TranscriptBuilder :=
  runOps (initState ("chunk"))
    [.addChunk ("a") 0 1000 none none, .addChunk ("b") 1200 2000 none none]

/-- C1 (evaluation at the failing input): on a 1200 ms gap the chunk branch
of `build_transcript` emits a period followed by the LITERAL two characters
backslash and n — the Python source line 211 appends the escaped string
`".\\n"` although its own comment says "Use newline" — so the output differs
from the claimed period + line break; and on a 200 ms gap it emits a comma
followed by TWO spaces (the `", "` separator plus the pre-text space added by
the next iteration), not a comma and a single space. -/
theorem claim_C1_chunk_punctuation_bug :
    buildTranscript c1GapBuilder ("simple") = "a.\\nb." ∧
    ("a.\\nb." : String) ≠ "a.\nb." ∧
    buildTranscript c1CommaBuilder ("simple") = "a,  b." ∧
    ("a,  b." : String) ≠ "a, b." := by
  refine ⟨?_, by decide, ?_, by decide⟩ <;>
  · norm_num [c1GapBuilder, c1CommaBuilder, runOps, runOp, addChunkSegment,
      initState, buildTranscript, buildChunkGo, pyStrip, pyEndsWith, strTruthy,
      secondLast, endsNl, List.foldl, List.dropWhile, List.isSuffixOf,
      Char.isWhitespace]
    decide

/-- Word-mode builder of the end-to-end scenario in the spec: chunk 1 words
hello [0.0,0.4] and world [0.5,0.9] at chunk start 0 ms, chunk 2 word
there [0.0,0.3] at chunk start 30000 ms, pause point recorded at 29800 ms. -/
def c2Builder : TranscriptBuilder :=
  runOps (initState ("word"))
    [.addWords [{ word := "hello", startSec := some 0, endSec := some (4/10),
                  confidence := none },
                { word := "world", startSec := some (1/2), endSec := some (9/10),
                  confidence := none }] 0 none,
     .addWords [{ word := "there", startSec := some 0, endSec := some (3/10),
                  confidence := none }] 30000 none,
     .addPause 29800]

/-- C2 counterexample: the claimed output "hello world.\nthere." is not what
the code produces — the word-granularity branch never writes a line break and
never consults the recorded pause points. -/
theorem claim_C2_counterexample :
    buildTranscript c2Builder ("simple") ≠ "hello world.\nthere." := by
  norm_num [c2Builder, runOps, runOp, addWordSegments, processWord, initState,
    addPausePoint, buildTranscript, buildWordGo, pyStrip, pyEndsWith, strTruthy,
    secondLast, endsNl, List.foldl, List.dropWhile, List.isSuffixOf,
    Char.isWhitespace]
  decide

/-- C2 amended: on that scenario `build_transcript("simple")` returns
"hello world. there." — the 29100 ms gap between `world` and `there` exceeds
the word-mode 800 ms threshold and produces a period, followed by the space
inserted before the next word; the pause point at 29800 ms plays no role and
no line break is emitted (the word branch has no pause-point logic). -/
theorem claim_C2_word_scenario_output :
    buildTranscript c2Builder ("simple") = "hello world. there." := by
  norm_num [c2Builder, runOps, runOp, addWordSegments, processWord, initState,
    addPausePoint, buildTranscript, buildWordGo, pyStrip, pyEndsWith, strTruthy,
    secondLast, endsNl, List.foldl, List.dropWhile, List.isSuffixOf,
    Char.isWhitespace]
  decide

/-- Parsed vosk result whose word confidences are 0.9, null, 0.7. -/
def c3VoskInput : VoskResult :=
  { text := "a b c",
    result := some
      [{ word := "a", startSec := some 0, endSec := some 1, conf := some (9/10) },
       { word := "b", startSec := some 1, endSec := some 2, conf := none },
       { word := "c", startSec := some 2, endSec := some 3, conf := some (7/10) }] }

/-- C3 counterexample: the vosk branch of the normalizer does NOT average
over the non-null entries only — on confidences [0.9, null, 0.7] it reports
(0.9+0.7)/3 = 8/15 ≈ 0.533, while the mean of the non-null entries is 4/5 =
0.8: the null entry counts in the denominator. -/
theorem claim_C3_counterexample :
    (voskFormat c3VoskInput).confidence = 8/15 ∧
    specMeanNonNull ((voskFormat c3VoskInput).segments.map
      (fun w => w.confidence)) = 4/5 ∧
    ((8 : ℚ)/15) ≠ 4/5 := by
  refine ⟨?_, ?_, by norm_num⟩ <;>
  · norm_num [c3VoskInput, voskFormat, specMeanNonNull, ratTruthy, pyStrip,
      List.filter, List.filterMap, List.dropWhile, Char.isWhitespace]
    decide

/-- Chunk-mode builder whose three segments carry confidences 0.9, null,
0.7. -/
def c3Builder : TranscriptBuilder :=
  runOps (initState ("chunk"))
    [.addChunk ("a") 0 10 none (some (9/10)),
     .addChunk ("b") 10 20 none none,
     .addChunk ("c") 20 30 none (some (7/10))]

/-- C3 amended: the `get_metadata` average of the builder and the whisper
word-granularity normalizer do average over the non-null confidence entries
only — on segments with confidences [0.9, null, 0.7] `average_confidence` is
0.8, and for every whisper word-granularity result the reported confidence is
the mean of the non-null collected word confidences (0 when none) — but the
vosk branch (and the whisper phrase-segment fallback) instead divide by the
total number of word entries, as the counterexample shows. -/
theorem claim_C3_confidence_averaging :
    (getMetadata c3Builder).average_confidence = some (4/5) ∧
    ∀ res : WhisperResult,
      (whisperFormatWord res).confidence =
        specMeanNonNull ((whisperFormatWord res).segments.map
          (fun w => w.confidence)) := by
  constructor
  · norm_num [c3Builder, runOps, runOp, addChunkSegment, initState, getMetadata,
      pyStrip, strTruthy, secondLast, List.foldl, List.dropWhile,
      Char.isWhitespace]
    decide
  · exact fun res => whisperFormatWord_meanNonNull res

/-- C6 counterexample: a word unit with BOTH bounds present but an
empty-after-strip word text is skipped — nothing is stored, although the
claim says every unit with both bounds present is stored. -/
theorem claim_C6_counterexample :
    addWordSegments (initState ("word"))
      [{ word := " ", startSec := some (3/2), endSec := some 2, confidence := none }]
      5000 none = .ok (initState ("word")) ∧
    (initState ("word")).segments = [] := by
  constructor
  · rfl
  · rfl

/-- C6 amended: on a word-mode builder `add_word_segments` never raises, and
stores, for each unit with both bounds present AND a non-empty stripped word
text, a segment with `start_time = chunk_start_ms + start*1000` and
`end_time = chunk_start_ms + end*1000`; units missing either bound (or with
an empty word text) are silently skipped. -/
theorem claim_C6_word_time_conversion (b : TranscriptBuilder)
    (ws : List WordInfo) (cs : ℚ) (sp : Option String)
    (h : b.granularity = "word") :
    ∃ b2, addWordSegments b ws cs sp = .ok b2 ∧
      b2.segments = b.segments ++ ws.filterMap (wordToSegment cs sp) := by
  have hok : addWordSegments b ws cs sp =
      .ok { b with
        segments := (ws.foldl (processWord cs sp) (b.segments, b.metadata)).1,
        metadata := (ws.foldl (processWord cs sp) (b.segments, b.metadata)).2 } := by
    unfold addWordSegments
    rw [h]
    simp
  exact ⟨_, hok, by simpa using foldl_processWord_fst cs sp ws (b.segments, b.metadata)⟩

/-- C6 witness: chunk start 5000 ms and word unit (1.5 s, 2.0 s) yield a
stored segment spanning 6500-7000 ms. -/
theorem claim_C6_witness :
    ∃ b2, addWordSegments (initState ("word"))
        [{ word := "hi", startSec := some (3/2), endSec := some 2,
           confidence := none }] 5000 none = .ok b2 ∧
      b2.segments = [{ text := "hi", start_time := 6500, end_time := 7000,
                       speaker := none, confidence := none }] := by
  obtain ⟨b2, h1, h2⟩ := claim_C6_word_time_conversion (initState ("word"))
    [{ word := "hi", startSec := some (3/2), endSec := some 2, confidence := none }]
    5000 none rfl
  refine ⟨b2, h1, ?_⟩
  rw [h2]
  have hps : pyStrip (" hi ") = "hi" ∧ pyStrip ("hi") = "hi" := by decide
  simp only [initState, List.nil_append, List.filterMap_cons, List.filterMap_nil,
    wordToSegment, hps.2]
  norm_num
  rw [if_neg (by decide : ¬ ("hi" : String) = "")]

/-- C5: for every builder reachable from a fresh state by a sequence of calls
whose end-time arguments are non-negative (times are millisecond offsets):
the `end_time` of every stored segment is bounded by `total_duration`; no single
call ever decreases `total_duration`; the `duration_seconds *
1000` of `get_metadata` dominates the `end_time` of every stored segment; and when segments exist,
`total_duration` is attained as one of the stored end times — i.e. it is
exactly the maximum `end_time` seen. -/
theorem claim_C5_total_duration_max (g : String) (ops : List BuilderOp)
    (hops : ∀ op ∈ ops, opEndsNonneg op) :
    (∀ s ∈ (runOps (initState g) ops).segments,
      s.end_time ≤ (runOps (initState g) ops).metadata.total_duration) ∧
    (∀ (b : TranscriptBuilder) (op : BuilderOp),
      b.metadata.total_duration ≤ (runOp b op).metadata.total_duration) ∧
    (∀ s ∈ (runOps (initState g) ops).segments,
      s.end_time ≤ (getMetadata (runOps (initState g) ops)).duration_seconds * 1000) ∧
    ((runOps (initState g) ops).segments ≠ [] →
      (runOps (initState g) ops).metadata.total_duration ∈
        endsOf (runOps (initState g) ops).segments) := by
  have hinv := runOps_totalInv g ops
  unfold BuilderTotalInv at hinv
  have hnn := runOps_endsNonneg g ops hops
  have hub : ∀ s ∈ (runOps (initState g) ops).segments,
      s.end_time ≤ (runOps (initState g) ops).metadata.total_duration := by
    intro s hs
    rw [hinv]
    exact le_foldl_max_of_mem 0 (List.mem_map_of_mem _ hs)
  refine ⟨hub, fun b op => runOp_total_mono b op, ?_, ?_⟩
  · intro s hs
    have hdur : (getMetadata (runOps (initState g) ops)).duration_seconds * 1000 =
        (runOps (initState g) ops).metadata.total_duration := by
      unfold getMetadata
      field_simp
    rw [hdur]
    exact hub s hs
  · intro hne
    rw [hinv]
    refine foldl_max_mem ?_ ?_
    · simpa [endsOf] using hne
    · intro x hx
      obtain ⟨s, hs, rfl⟩ := List.mem_map.mp hx
      exact hnn s hs

/-- C5 witness: a one-segment trace where the end-time bound 5 is attained as
the total duration. -/
theorem claim_C5_witness :
    (runOps (initState ("chunk")) [.addChunk ("a") 0 5 none none]).metadata.total_duration
      ∈ endsOf (runOps (initState ("chunk")) [.addChunk ("a") 0 5 none none]).segments := by
  have h := claim_C5_total_duration_max ("chunk") [.addChunk ("a") 0 5 none none]
    (by
      intro op hop
      rw [List.mem_singleton] at hop
      subst hop
      exact (by norm_num : (0:ℚ) ≤ 5))
  exact h.2.2.2 (by decide)

/-- A processor holding a successfully loaded but empty (0 ms) buffer. -/
def c8EmptyProcessor : AudioProcessor :=
  { file_path := "empty.mp3", sample_rate := 16000, chunk_size := 1000,
    audio := some 0 }

/-- C8 counterexample: on a loaded but empty (0 ms) buffer with a positive
chunk size, `get_chunks` does not return a chunk sequence at all — the
`if not self.audio` guard also fires on a falsy 0-length `AudioSegment` and
raises `ValueError` — refuting the claim for this loaded buffer. -/
theorem claim_C8_counterexample :
    getChunks c8EmptyProcessor =
      .error ("Audio not loaded. Call load_audio() first.") ∧
    (getChunks c8EmptyProcessor).isOk = false :=
  ⟨rfl, rfl⟩

/-- C8 amended: on a loaded NON-EMPTY audio buffer (duration > 0) and
positive chunk size, `get_chunks` returns ⌈duration/chunk_size⌉ chunks whose
lengths sum to the buffer duration, and consecutive chunks are contiguous
(next start = start + length) and strictly ordered by start offset — hence
non-overlapping; a loaded empty buffer instead raises the not-loaded
`ValueError` by the falsy-buffer guard.  `get_chunks` is a pure function of
the processor state, so the sequence is recomputed identically on every
call. -/
theorem claim_C8_chunking (p : AudioProcessor) (d : ℕ)
    (h1 : p.audio = some d) (h0 : 0 < d) (h2 : 0 < p.chunk_size) :
    ∃ chunks, getChunks p = .ok chunks ∧
      (chunks.map (fun c => c.len)).sum = d ∧
      chunks.length = (d + p.chunk_size - 1) / p.chunk_size ∧
      (∀ k (hk : k + 1 < chunks.length),
        (chunks.get ⟨k, Nat.lt_of_succ_lt hk⟩).start +
            (chunks.get ⟨k, Nat.lt_of_succ_lt hk⟩).len =
          (chunks.get ⟨k + 1, hk⟩).start ∧
        (chunks.get ⟨k, Nat.lt_of_succ_lt hk⟩).start <
          (chunks.get ⟨k + 1, hk⟩).start) := by
  refine ⟨(pyRange d p.chunk_size).map
    (fun i => { start := i, len := min (i + p.chunk_size) d - i }), ?_, ?_, ?_, ?_⟩
  · have htruthy : audioTruthy (some d) = true := by
      simpa [audioTruthy] using Nat.pos_iff_ne_zero.mp h0
    simp only [getChunks, h1, Option.getD_some]
    rw [if_neg (not_not_intro htruthy), if_neg (Nat.pos_iff_ne_zero.mp h2)]
  · rw [pyRange, List.map_map, List.map_map]
    simp only [Function.comp_def]
    exact chunkLens_sum_eq p.chunk_size d h2
  · simp [pyRange]
  · intro k hk
    have hlen : ((pyRange d p.chunk_size).map (fun i =>
        ({ start := i, len := min (i + p.chunk_size) d - i } : Chunk))).length =
        (d + p.chunk_size - 1) / p.chunk_size := by simp [pyRange]
    have hk2 : k + 1 < (d + p.chunk_size - 1) / p.chunk_size := hlen ▸ hk
    have hd : (k + 1) * p.chunk_size < d := (lt_numChunks_iff h2).mp hk2
    rw [add_one_mul] at hd
    simp only [List.get_eq_getElem, pyRange, List.map_map, List.getElem_map,
      List.getElem_range]
    constructor
    · show k * p.chunk_size + (min (k * p.chunk_size + p.chunk_size) d -
        k * p.chunk_size) = (k + 1) * p.chunk_size
      rw [add_one_mul]
      generalize k * p.chunk_size = t at hd ⊢
      omega
    · show k * p.chunk_size < (k + 1) * p.chunk_size
      rw [add_one_mul]
      generalize k * p.chunk_size = t
      omega

/-- A processor holding a loaded 2500 ms buffer with 1000 ms chunk size. -/
def c8Processor : AudioProcessor :=
  { file_path := "x.mp3", sample_rate := 16000, chunk_size := 1000,
    audio := some 2500 }

/-- C8 witness: a 2500 ms buffer with 1000 ms chunks yields lengths summing
to 2500. -/
theorem claim_C8_witness :
    ∃ chunks, getChunks c8Processor = .ok chunks ∧
      (chunks.map (fun c => c.len)).sum = 2500 := by
  obtain ⟨chunks, hok, hsum, _, _⟩ := claim_C8_chunking c8Processor 2500 rfl
    (by decide) (by decide)
  exact ⟨chunks, hok, hsum⟩
